import Mathlib

/-!
Verification of the query logger of the oxmysql repository
(`src/logger/index.ts`) against its natural-language specification.

The TypeScript module is shallowly embedded below:

* JS numbers that hold durations/thresholds are modelled as rationals `ℚ`;
* JS `undefined`-able values are modelled with `Option`;
* the mutable module-level `logStorage` object is modelled as an explicit
  store value `String → Option (List QueryData)` threaded through the
  store-updating functions;
* code that throws a `TypeError` is modelled with `Except Unit`;
* `Date.now()` is modelled as an explicit `now : Nat` argument;
* configuration values imported from `../config` (`mysql_ui`,
  `mysql_log_size`, `mysql_slow_query_warning`, `mysql_debug`) are fields of
  an explicit `Config` record.

Console output, the `TriggerEvent`/`emitNet` transport and the actual MySQL
connection are external effects with no bearing on the store or on the
values computed here; functions below return exactly the data that the
source would store or emit.
-/

namespace Oxmysql

/-- One set of query parameters (an element of `CFXParameters`); the logger
never inspects parameter values, so they are modelled as strings. -/
abbrev ParamSet := List String

/-- Configuration read from `../config`.  `mysql_debug` is either a boolean
flag or an allow-list of resource names; in the source it only gates console
output, which has no store effect. -/
structure Config where
  mysql_ui : Bool
  mysql_log_size : Nat
  mysql_slow_query_warning : ℚ
  mysql_debug : Bool ⊕ List String

/-- `QueryData` from the source.  The `slow` field is `true` or `undefined`
(`slow: executionTime >= mysql_slow_query_warning ? true : undefined`),
modelled as `Option Bool`. -/
structure QueryData where
  date : Nat
  query : String
  executionTime : ℚ
  slow : Option Bool
deriving DecidableEq

/-- `logStorage : QueryLog = Record<string, QueryData[]>`; a key that was
never written is `undefined` (`none`). -/
def Store := String → Option (List QueryData)

/-- `logStorage` at process start: empty object. -/
def emptyStore : Store := fun _ => none

/-- `logStorage[r] = l`. -/
def setResource (s : Store) (r : String) (l : List QueryData) : Store :=
  fun k => if k = r then some l else s k

/-- The ordered sequence stored for a resource, reading a missing key as the
empty sequence (the spec's `get`). -/
def resourceLogOf (s : Store) (r : String) : List QueryData := (s r).getD []

/-- The record pushed by `logQuery`:
`{ query, executionTime, date: Date.now(), slow: executionTime >= mysql_slow_query_warning ? true : undefined }`. -/
def mkQueryData (cfg : Config) (query : String) (executionTime : ℚ) (now : Nat) : QueryData :=
  { date := now
    query := query
    executionTime := executionTime
    slow := if cfg.mysql_slow_query_warning ≤ executionTime then some true else none }

/-- The update applied to an existing per-resource array:
`if (logStorage[r].length > mysql_log_size) logStorage[r].splice(0, 1);`
followed by `logStorage[r].push(rec)`. -/
def appendL (capacity : Nat) (l : List QueryData) (rec : QueryData) : List QueryData :=
  if l.length > capacity then l.drop 1 ++ [rec] else l ++ [rec]

/-- The per-resource update of `logQuery`: a missing key is first created as
`[]` (`if (!logStorage[r]) logStorage[r] = []`) with no eviction check, then
the record is pushed; an existing array goes through `appendL`. -/
def appendQuery (capacity : Nat) (log : Option (List QueryData)) (rec : QueryData) :
    List QueryData :=
  match log with
  | none => [rec]
  | some l => appendL capacity l rec

/-- Store effect of `logQuery`.  The console-warning branch at the top of the
source function writes no state and is omitted; `if (!mysql_ui) return;`
makes the whole store update conditional on the UI flag.  The `parameters`
argument is only ever used for console output. -/
def logQuery (cfg : Config) (now : Nat) (store : Store) (invokingResource : String)
    (query : String) (executionTime : ℚ) (parameters : Option ParamSet) : Store :=
  if !cfg.mysql_ui then store
  else
    setResource store invokingResource
      (appendQuery cfg.mysql_log_size (store invokingResource)
        (mkQueryData cfg query executionTime now))

/-- The arguments of one `logQuery` invocation. -/
structure LogCall where
  invokingResource : String
  query : String
  executionTime : ℚ
  parameters : Option ParamSet
  now : Nat
deriving DecidableEq

/-- A sequence of `logQuery` invocations applied to the store in order. -/
def runLog (cfg : Config) (calls : List LogCall) (store : Store) : Store :=
  calls.foldl
    (fun s c => logQuery cfg c.now s c.invokingResource c.query c.executionTime c.parameters)
    store

/-- The last `n` elements of a list (all of it when `n ≥ length`). -/
def lastN {α : Type} (n : Nat) (l : List α) : List α := l.drop (l.length - n)

/-- Sort key of the dashboard view (`sort.id`). -/
inductive SortId where
  | query
  | executionTime
deriving DecidableEq

/-- One entry of `data.sortBy`. -/
structure SortSpec where
  id : SortId
  desc : Bool
deriving DecidableEq

/-- Ascending order used by `sortQueries`.  The source comparator for
`executionTime` is `a.executionTime - b.executionTime`, a consistent
comparator, so ECMAScript guarantees a stable ascending sort, modelled by a
stable merge sort on `≤`.  For `query` the source comparator is
`a.query > b.query ? 1 : -1`, which never returns 0; the relative order of
equal keys under `Array.prototype.sort` is then implementation-defined, and
`≤` is one representative reading (see the discussion at the sort theorems). -/
def sortLe (id : SortId) (a b : QueryData) : Bool :=
  match id with
  | .query => decide (a.query ≤ b.query)
  | .executionTime => decide (a.executionTime ≤ b.executionTime)

/-- `sortQueries`: copy (`[...queries]`), sort ascending by the requested
field, then reverse the whole sorted copy when `sort.desc` is set. -/
def sortQueries (queries : List QueryData) (sort : SortSpec) : List QueryData :=
  let sorted := queries.mergeSort (sortLe sort.id)
  if sort.desc then sorted.reverse else sorted

/-- Payload of the `oxmysql:fetchResource` request.  An absent or empty
`search` string is falsy in the source, so `search = ""` models "no filter";
an absent `sortBy` is modelled as `[]` (the source only uses
`data.sortBy[0]` when `sortBy.length > 0`). -/
structure ViewRequest where
  resource : String
  pageIndex : Nat
  search : String
  sortBy : List SortSpec
deriving DecidableEq

/-- Payload of the `oxmysql:loadResource` reply. -/
structure ViewResponse where
  queries : List QueryData
  pageCount : Nat
  resourceQueriesCount : Nat
  resourceSlowQueries : Nat
  resourceTime : ℚ
deriving DecidableEq

/-- `hay` contains `needle` as a contiguous substring (JS
`String.prototype.includes`). -/
def charsContain (hay needle : List Char) : Bool :=
  match hay with
  | [] => needle.isEmpty
  | c :: rest => needle.isPrefixOf (c :: rest) || charsContain rest needle

/-- JS `toLowerCase`, modelled as per-character lowering of the char list
(`Char.toLower` lowercases ASCII letters; the claims and witnesses only
exercise ASCII text). -/
def lowerChars (cs : List Char) : List Char := cs.map Char.toLower

/-- `q.query.toLowerCase().includes(searchL)` for an already-lowercased
needle `searchL`. -/
def matchesSearch (searchL : List Char) (q : QueryData) : Bool :=
  charsContain (lowerChars q.query.data) searchL

/-- The filter step: `if (data.search) data.search = data.search.toLowerCase();`
then `logStorage[resource].filter(q => q.query.toLowerCase().includes(data.search))`;
a falsy (empty) search string leaves the log unfiltered. -/
def applySearch (search : String) (l : List QueryData) : List QueryData :=
  if search = "" then l else l.filter (matchesSearch (lowerChars search.data))

/-- The `resourceTime` accumulation loop of the handler. -/
def sumTime (l : List QueryData) : ℚ :=
  l.foldl (fun acc q => acc + q.executionTime) 0

/-- The `resourceSlowQueries` accumulation loop (`if (query.slow) ... += 1`;
`undefined` is falsy). -/
def countSlow (l : List QueryData) : Nat :=
  l.foldl (fun acc q => if q.slow.getD false then acc + 1 else acc) 0

/-- The response built by the `oxmysql:fetchResource` handler once
`logStorage[data.resource]` resolved to an actual array `log`. -/
def buildView (d : ViewRequest) (log : List QueryData) : ViewResponse :=
  let resourceLog := applySearch d.search log
  let queries :=
    match d.sortBy.head? with
    | some s => ((sortQueries resourceLog s).drop (d.pageIndex * 10)).take 10
    | none => (resourceLog.drop (d.pageIndex * 10)).take 10
  { queries := queries
    pageCount := (resourceLog.length + 9) / 10
    resourceQueriesCount := resourceLog.length
    resourceSlowQueries := countSlow resourceLog
    resourceTime := sumTime resourceLog }

/-- The `oxmysql:fetchResource` handler after its type/ACE guard.  When the
resource key is unknown, `logStorage[data.resource]` is `undefined` and the
handler dereferences it unconditionally — `.filter(...)` when a search is
present, otherwise the sort spread `[...queries]` or `.slice(...)` — so every
such request raises a `TypeError` before any reply is emitted; this is
modelled as `Except.error ()` at the lookup.  (The later `if (!queries)
return` can never fire: an array, even empty, is truthy.) -/
def fetchResource (store : Store) (d : ViewRequest) : Except Unit ViewResponse :=
  match store d.resource with
  | none => Except.error ()
  | some log => Except.ok (buildView d log)

/-- One element of the heterogeneous batch form
`{ query: string; params?: CFXParameters }[]`. -/
structure TransactionQuery where
  query : String
  params : Option ParamSet
deriving DecidableEq

/-- The `query` argument of `profileBatchStatements`: a single template
string or a heterogeneous list of statements. -/
inductive BatchQuery where
  | str (query : String)
  | arr (statements : List TransactionQuery)
deriving DecidableEq

/-- The arguments of one `logQuery` call emitted by the profiler correlator
(resource and timestamp omitted: they are the same for every emitted call). -/
structure LogEntry where
  query : String
  executionTime : ℚ
  parameters : Option ParamSet
deriving DecidableEq

/-- Single-template correlation loop:
`for (i = 0; i < profiler.length; i++) logQuery(resource, query, parseFloat(profiler[i].duration), parameters[offset + i])`.
Each profiler row is modelled by its raw `SUM(DURATION)` in seconds `d`; the
retrieval statement multiplies by 1000 (`SELECT FORMAT(SUM(DURATION) * 1000, 4)`),
and the `FORMAT`/`parseFloat` round trip is modelled as exact numeric
transport, so the value logged for the row is `1000 * d` milliseconds. -/
def correlateSingle (query : String) (parameters : List ParamSet) (rows : List ℚ)
    (offset : Nat) : List LogEntry :=
  match rows with
  | [] => []
  | d :: rest =>
    { query := query, executionTime := 1000 * d, parameters := parameters[offset]? } ::
      correlateSingle query parameters rest (offset + 1)

/-- Heterogeneous correlation loop:
`const transaction = query[offset + i]; if (transaction) logQuery(...); else break;`.
An index past the end of the statements yields `undefined` (falsy) and the
loop breaks; an element fetched in bounds is an object and always truthy. -/
def correlateTransactions (statements : List TransactionQuery) (rows : List ℚ)
    (offset : Nat) : List LogEntry :=
  match rows with
  | [] => []
  | d :: rest =>
    match statements[offset]? with
    | some t =>
      { query := t.query, executionTime := 1000 * d, parameters := t.params } ::
        correlateTransactions statements rest (offset + 1)
    | none => []

/-- The pure correlation core of `profileBatchStatements` (the surrounding
engine round trips — fetching `INFORMATION_SCHEMA.PROFILING` and resetting the
profiler — deliver `rows` and are external).  `if (profiler.length === 0)
return;` then dispatch: the single-template loop runs only under
`typeof query === 'string' && parameters` (a `null` parameters array skips
both branches), the transaction loop under `typeof query === 'object'`. -/
def profileBatchStatements (query : BatchQuery) (parameters : Option (List ParamSet))
    (rows : List ℚ) (offset : Nat) : List LogEntry :=
  if rows.isEmpty then []
  else
    match query, parameters with
    | .str q, some ps => correlateSingle q ps rows offset
    | .str _, none => []
    | .arr ts, _ => correlateTransactions ts rows offset

/-- JS `\w`: `[A-Za-z0-9_]`. -/
def isWordChar (c : Char) : Bool :=
  (decide ('a' ≤ c) && decide (c ≤ 'z')) || (decide ('A' ≤ c) && decide (c ≤ 'Z')) ||
    c.isDigit || c == '_'

/-- The character class `[\w\/\.]` of the `logError` regex. -/
def isPathChar (c : Char) : Bool :=
  isWordChar c || c == '/' || c == '.'

/-- The precise character set matched by JS `\s`: the ECMAScript WhiteSpace
production (TAB, VT, FF, SP, NBSP, ZWNBSP and the Unicode `Zs` category —
U+1680, U+2000..U+200A, U+202F, U+205F, U+3000) together with the
LineTerminator production (LF, CR, LS U+2028, PS U+2029). -/
def jsSpaceChars : List Char :=
  [' ', '\t', '\n', '\r', Char.ofNat 11, Char.ofNat 12, Char.ofNat 0xa0,
    Char.ofNat 0x1680, Char.ofNat 0x2000, Char.ofNat 0x2001, Char.ofNat 0x2002,
    Char.ofNat 0x2003, Char.ofNat 0x2004, Char.ofNat 0x2005, Char.ofNat 0x2006,
    Char.ofNat 0x2007, Char.ofNat 0x2008, Char.ofNat 0x2009, Char.ofNat 0x200a,
    Char.ofNat 0x2028, Char.ofNat 0x2029, Char.ofNat 0x202f,
    Char.ofNat 0x205f, Char.ofNat 0x3000, Char.ofNat 0xfeff]

/-- The character class `[:\s]` of the `logError` regex. -/
def isColonSpace (c : Char) : Bool :=
  c == ':' || jsSpaceChars.contains c

/-- The literal head of the `logError` regex
`/SCRIPT ERROR: citizen:[\w\/\.]+:\d+[:\s]+/` — note the namespace is the
fixed word `citizen`. -/
def scriptErrorLit : List Char := "SCRIPT ERROR: citizen:".data

/-- Match the `logError` regex at the start of `cs`; `some t` returns the
text after the match.  Backtracking cannot produce any other match here: the
greedy run of `[\w\/\.]+` must be followed by `:`, which is not a path
character, so shortening the run can only put a path character where `:` is
required; likewise `\d+` must be followed by `[:\s]+`, and no digit is in
`[:\s]`.  Hence the JS greedy match is exactly this sequence of maximal
`takeWhile` runs. -/
def matchTail (cs : List Char) : Option (List Char) :=
  if cs.take scriptErrorLit.length = scriptErrorLit then
    let r1 := cs.drop scriptErrorLit.length
    let path := r1.takeWhile isPathChar
    if path = [] then none
    else
      match r1.drop path.length with
      | [] => none
      | c :: r3 =>
        if c = ':' then
          let digits := r3.takeWhile Char.isDigit
          if digits = [] then none
          else
            let r4 := r3.drop digits.length
            let trail := r4.takeWhile isColonSpace
            if trail = [] then none else some (r4.drop trail.length)
        else none
  else none

/-- `String.prototype.replace` with a non-global regex and the empty
replacement: delete the leftmost match, keep everything else. -/
def replaceFirst (cs : List Char) : List Char :=
  match cs with
  | [] => []
  | c :: rest =>
    match matchTail (c :: rest) with
    | some tail => tail
    | none => c :: replaceFirst rest

/-- `err.replace(/SCRIPT ERROR: citizen:[\w\/\.]+:\d+[:\s]+/, '')` on the
string form of the error. -/
def stripScriptError (s : String) : String :=
  String.mk (replaceFirst s.data)

/-- The `err` argument of `logError`: an `Error` object or a string. -/
inductive ErrInput where
  | errObj (message : String)
  | str (s : String)
deriving DecidableEq

/-- The human-readable `message` computed by `logError`:
`typeof err === 'object' ? err.message : err.replace(/SCRIPT ERROR: citizen:[\w\/\.]+:\d+[:\s]+/, '')`. -/
def logErrorMessage (err : ErrInput) : String :=
  match err with
  | .errObj m => m
  | .str s => stripScriptError s

instance : DecidableEq (Except Unit ViewResponse) := fun a b =>
  match a, b with
  | .error (), .error () => isTrue rfl
  | .ok x, .ok y =>
    if h : x = y then isTrue (by rw [h]) else isFalse (fun hh => h (Except.ok.inj hh))
  | .error _, .ok _ => isFalse (fun hh => Except.noConfusion hh)
  | .ok _, .error _ => isFalse (fun hh => Except.noConfusion hh)

/-! ## Helper lemmas -/

theorem correlateSingle_length (q : String) (ps : List ParamSet) (rows : List ℚ) :
    ∀ offset : Nat, (correlateSingle q ps rows offset).length = rows.length := by
  induction rows with
  | nil => intro offset; rfl
  | cons d rest ih =>
    intro offset
    simp [correlateSingle, ih (offset + 1)]

theorem correlateSingle_getElem (q : String) (ps : List ParamSet) (rows : List ℚ) :
    ∀ (offset i : Nat),
      (correlateSingle q ps rows offset)[i]?
        = (rows[i]?).map (fun d => ⟨q, 1000 * d, ps[offset + i]?⟩) := by
  induction rows with
  | nil => intro offset i; simp [correlateSingle]
  | cons d rest ih =>
    intro offset i
    cases i with
    | zero => simp [correlateSingle]
    | succ j =>
      have harith : offset + 1 + j = offset + (j + 1) := by omega
      simp [correlateSingle, ih (offset + 1) j, harith]

theorem correlateTransactions_length (ts : List TransactionQuery) (rows : List ℚ) :
    ∀ offset : Nat,
      (correlateTransactions ts rows offset).length = min rows.length (ts.length - offset) := by
  induction rows with
  | nil => intro offset; simp [correlateTransactions]
  | cons d rest ih =>
    intro offset
    cases hts : ts[offset]? with
    | some t =>
      have hlt : offset < ts.length := by
        by_contra hc
        rw [List.getElem?_eq_none (by omega)] at hts
        exact Option.noConfusion hts
      simp only [correlateTransactions, hts, List.length_cons, ih (offset + 1)]
      omega
    | none =>
      have hge : ts.length ≤ offset := by
        by_contra hc
        rw [List.getElem?_eq_getElem (by omega)] at hts
        exact Option.noConfusion hts
      simp only [correlateTransactions, hts, List.length_nil, List.length_cons]
      omega

theorem correlateTransactions_getElem (ts : List TransactionQuery) (rows : List ℚ) :
    ∀ (offset i : Nat) (d : ℚ) (t : TransactionQuery),
      rows[i]? = some d → ts[offset + i]? = some t →
      (correlateTransactions ts rows offset)[i]? = some ⟨t.query, 1000 * d, t.params⟩ := by
  induction rows with
  | nil => intro offset i d t hd ht; simp at hd
  | cons d0 rest ih =>
    intro offset i d t hd ht
    cases i with
    | zero =>
      simp only [List.getElem?_cons_zero, Option.some.injEq] at hd
      subst hd
      rw [Nat.add_zero] at ht
      simp [correlateTransactions, ht]
    | succ j =>
      simp only [List.getElem?_cons_succ] at hd
      have ht2 : ts[offset + 1 + j]? = some t := by
        rw [show offset + 1 + j = offset + (j + 1) from by omega]
        exact ht
      have hts : ∃ t0, ts[offset]? = some t0 := by
        have hlen : offset + (j + 1) < ts.length := by
          by_contra hc
          rw [List.getElem?_eq_none (by omega)] at ht
          exact Option.noConfusion ht
        exact ⟨ts.get ⟨offset, by omega⟩, List.getElem?_eq_getElem (by omega)⟩
      obtain ⟨t0, ht0⟩ := hts
      simp only [correlateTransactions, ht0, List.getElem?_cons_succ]
      exact ih (offset + 1) j d t hd ht2

theorem profileBatch_str_eq (q : String) (ps : List ParamSet) (rows : List ℚ) (offset : Nat) :
    profileBatchStatements (.str q) (some ps) rows offset = correlateSingle q ps rows offset := by
  cases rows <;> simp [profileBatchStatements, correlateSingle]

theorem profileBatch_arr_eq (ts : List TransactionQuery) (ps : Option (List ParamSet))
    (rows : List ℚ) (offset : Nat) :
    profileBatchStatements (.arr ts) ps rows offset = correlateTransactions ts rows offset := by
  cases rows <;> simp [profileBatchStatements, correlateTransactions]

theorem appendL_lastN (C : Nat) (recs : List QueryData) (r : QueryData) :
    appendL C (lastN (min recs.length (C + 1)) recs) r
      = lastN (min (recs.length + 1) (C + 1)) (recs ++ [r]) := by
  unfold appendL lastN
  simp only [List.length_drop, List.length_append, List.length_cons, List.length_nil]
  by_cases h : recs.length ≤ C
  · rw [if_neg (by omega)]
    have e1 : recs.length - min recs.length (C + 1) = 0 := by omega
    have e2 : recs.length + (0 + 1) - min (recs.length + (0 + 1)) (C + 1) = 0 := by omega
    have e3 : recs.length + (0 + 1) = recs.length + 1 := by omega
    rw [e1, List.drop_zero, e3]
    rw [show recs.length + 1 - min (recs.length + 1) (C + 1) = 0 from by omega, List.drop_zero]
  · rw [if_pos (by omega)]
    rw [List.drop_drop]
    rw [show recs.length - min recs.length (C + 1) + 1 = recs.length - C from by omega]
    rw [show recs.length + (0 + 1) - min (recs.length + 1) (C + 1) = recs.length - C from by omega]
    rw [List.drop_append_of_le_length (by omega)]

theorem foldl_appendL (C : Nat) (recs : List QueryData) :
    recs.foldl (appendL C) [] = lastN (min recs.length (C + 1)) recs := by
  induction recs using List.reverseRecOn with
  | nil => simp [lastN]
  | append_singleton recs r ih =>
    rw [List.foldl_append, List.foldl_cons, List.foldl_nil, ih, appendL_lastN]
    simp

theorem runLog_resourceLog (cfg : Config) (hui : cfg.mysql_ui = true) (r : String)
    (calls : List LogCall) :
    ∀ store : Store, (∀ c ∈ calls, c.invokingResource = r) →
    resourceLogOf (runLog cfg calls store) r
      = calls.foldl
          (fun l c => appendL cfg.mysql_log_size l (mkQueryData cfg c.query c.executionTime c.now))
          (resourceLogOf store r) := by
  induction calls with
  | nil => intro store _; rfl
  | cons c cs ih =>
    intro store hall
    have hc : c.invokingResource = r := hall c (by simp)
    have hstep :
        resourceLogOf
            (logQuery cfg c.now store c.invokingResource c.query c.executionTime c.parameters) r
          = appendL cfg.mysql_log_size (resourceLogOf store r)
              (mkQueryData cfg c.query c.executionTime c.now) := by
      rw [hc]
      simp only [logQuery, hui, Bool.not_true, Bool.false_eq_true, if_false, resourceLogOf,
        setResource, if_pos rfl]
      cases hsr : store r with
      | none => simp [appendQuery, appendL]
      | some l => simp [appendQuery]
    have hrw : runLog cfg (c :: cs) store
        = runLog cfg cs
            (logQuery cfg c.now store c.invokingResource c.query c.executionTime c.parameters) :=
      rfl
    rw [hrw, ih _ (fun x hx => hall x (List.mem_cons_of_mem c hx)), hstep]
    rfl

theorem takeWhile_append_of {p : Char → Bool} :
    ∀ l1 l2 : List Char, (∀ c ∈ l1, p c = true) → (∀ c, l2.head? = some c → p c = false) →
    (l1 ++ l2).takeWhile p = l1 := by
  intro l1
  induction l1 with
  | nil =>
    intro l2 _ h2
    cases l2 with
    | nil => rfl
    | cons c rest => simp [List.takeWhile_cons, h2 c rfl]
  | cons a l1 ih =>
    intro l2 h1 h2
    have ha : p a = true := h1 a (by simp)
    simp [List.takeWhile_cons, ha, ih l2 (fun c hc => h1 c (by simp [hc])) h2]

theorem isColonSpace_not_digit {c : Char} (h : isColonSpace c = true) : c.isDigit = false := by
  rcases Bool.or_eq_true_iff.mp h with h1 | h1
  · rw [show c = ':' from eq_of_beq h1]
    decide
  · have hm : c ∈ jsSpaceChars := by
      simpa using h1
    have hall : ∀ x ∈ jsSpaceChars, x.isDigit = false := by decide
    exact hall c hm

theorem replaceFirst_of_matchTail {cs t : List Char} (h : matchTail cs = some t) :
    replaceFirst cs = t := by
  cases cs with
  | nil =>
    rw [show matchTail [] = none from by decide] at h
    exact Option.noConfusion h
  | cons c rest =>
    unfold replaceFirst
    rw [h]

theorem matchTail_none_of_take_ne (cs : List Char)
    (h : cs.take scriptErrorLit.length ≠ scriptErrorLit) : matchTail cs = none := by
  unfold matchTail
  rw [if_neg h]

theorem replaceFirst_skip {t : List Char} (pre cs : List Char)
    (h : ∀ i, i < pre.length → matchTail ((pre ++ cs).drop i) = none)
    (hm : matchTail cs = some t) : replaceFirst (pre ++ cs) = pre ++ t := by
  induction pre with
  | nil => simpa using replaceFirst_of_matchTail hm
  | cons a pre ih =>
    rw [List.cons_append]
    have h0 : matchTail (a :: (pre ++ cs)) = none := by
      have h1 := h 0 (by simp)
      simpa using h1
    have hih := ih (fun i hi => by
      have h2 := h (i + 1) (by simpa using Nat.succ_lt_succ hi)
      simpa using h2)
    unfold replaceFirst
    rw [h0, hih]
    rfl

theorem replaceFirst_self (cs : List Char)
    (h : ∀ i, i < cs.length → matchTail (cs.drop i) = none) : replaceFirst cs = cs := by
  induction cs with
  | nil => rfl
  | cons a rest ih =>
    have h0 : matchTail (a :: rest) = none := by
      have h1 := h 0 (by simp)
      simpa using h1
    have hih := ih (fun i hi => by
      have h2 := h (i + 1) (by simpa using Nat.succ_lt_succ hi)
      simpa using h2)
    unfold replaceFirst
    rw [h0, hih]

theorem matchTail_full (path digits trail rest : List Char)
    (hp : path ≠ []) (hpc : ∀ c ∈ path, isPathChar c = true)
    (hd : digits ≠ []) (hdc : ∀ c ∈ digits, c.isDigit = true)
    (ht : trail ≠ []) (htc : ∀ c ∈ trail, isColonSpace c = true)
    (hr : ∀ c, rest.head? = some c → isColonSpace c = false) :
    matchTail (scriptErrorLit ++ (path ++ ':' :: (digits ++ (trail ++ rest)))) = some rest := by
  obtain ⟨t0, ttl, rfl⟩ := List.exists_cons_of_ne_nil ht
  unfold matchTail
  rw [List.take_left, if_pos rfl, List.drop_left]
  dsimp only
  rw [takeWhile_append_of path (':' :: (digits ++ (t0 :: ttl ++ rest))) hpc
    (fun c hc => by
      rw [← Option.some.inj hc]; decide)]
  rw [if_neg hp, List.drop_left]
  dsimp only
  rw [if_pos rfl]
  rw [takeWhile_append_of digits (t0 :: ttl ++ rest) hdc
    (fun c hc => by
      rw [← Option.some.inj hc]
      exact isColonSpace_not_digit (htc t0 (by simp)))]
  rw [if_neg hd, List.drop_left]
  rw [takeWhile_append_of (t0 :: ttl) rest htc hr]
  rw [if_neg (by simp), List.drop_left]

/-! ## Claim theorems -/

/-- C5: for every heterogeneous batch, offset and profiler-row sequence, the
correlation emits exactly one entry per row up to the first row `i` whose
index `offset + i` has no batch entry — the output has length
`min rows.length (statements.length - offset)` — and every earlier row `i`
yields the entry pairing `statements[offset+i]` with the row's duration in
milliseconds; the function is total, so no error is raised. -/
theorem correlateTransactions_truncation (ts : List TransactionQuery)
    (ps : Option (List ParamSet)) (rows : List ℚ) (offset : Nat) :
    (profileBatchStatements (.arr ts) ps rows offset).length
        = min rows.length (ts.length - offset)
    ∧ (∀ (i : Nat) (d : ℚ) (t : TransactionQuery), rows[i]? = some d →
        ts[offset + i]? = some t →
        (profileBatchStatements (.arr ts) ps rows offset)[i]?
          = some ⟨t.query, 1000 * d, t.params⟩) := by
  rw [profileBatch_arr_eq]
  exact ⟨correlateTransactions_length ts rows offset,
    fun i d t hd ht => correlateTransactions_getElem ts rows offset i d t hd ht⟩

/-- Witness for C5: the spec's truncation example — a heterogeneous batch of
length 2, offset 0 and 3 profiler rows produce exactly 2 entries, and row 0
is paired with the first statement. -/
theorem correlateTransactions_truncation_witness :
    (profileBatchStatements (.arr [⟨"a", some ["p"]⟩, ⟨"b", none⟩]) none [1, 2, 3] 0).length = 2
    ∧ (profileBatchStatements (.arr [⟨"a", some ["p"]⟩, ⟨"b", none⟩]) none [1, 2, 3] 0)[0]?
        = some ⟨"a", 1000, some ["p"]⟩ := by
  have h := correlateTransactions_truncation [⟨"a", some ["p"]⟩, ⟨"b", none⟩] none [1, 2, 3] 0
  exact ⟨h.1.trans (by decide), (h.2 0 1 ⟨"a", some ["p"]⟩ rfl rfl).trans (by norm_num)⟩

/-- C6: for every single-template batch with parameter sets, every offset and
every profiler-row sequence, correlation emits exactly one entry per row,
pairing the template text with the parameter set at index `offset + i` and
the row's raw duration (seconds) converted to milliseconds; an empty row
sequence emits nothing and is not an error. -/
theorem correlateSingle_pairs_rows (q : String) (ps : List ParamSet) (rows : List ℚ)
    (offset : Nat) :
    (profileBatchStatements (.str q) (some ps) rows offset).length = rows.length
    ∧ (∀ (i : Nat) (d : ℚ), rows[i]? = some d →
        (profileBatchStatements (.str q) (some ps) rows offset)[i]?
          = some ⟨q, 1000 * d, ps[offset + i]?⟩)
    ∧ (rows = [] → profileBatchStatements (.str q) (some ps) rows offset = []) := by
  rw [profileBatch_str_eq]
  refine ⟨correlateSingle_length q ps rows offset, fun i d hd => ?_, fun h => by subst h; rfl⟩
  rw [correlateSingle_getElem q ps rows offset i, hd]
  rfl

/-- Witness for C6: the spec's correlation example — rows with raw durations
`0.002` s and `0.001` s, parameter sets `[p0, p1, p2]` and offset 1 produce
two entries, the first pairing the template with `p1` and `2.0` ms. -/
theorem correlateSingle_pairs_rows_witness :
    (profileBatchStatements (.str "T") (some [["p0"], ["p1"], ["p2"]]) [1/500, 1/1000] 1).length = 2
    ∧ (profileBatchStatements (.str "T") (some [["p0"], ["p1"], ["p2"]]) [1/500, 1/1000] 1)[0]?
        = some ⟨"T", 2, some ["p1"]⟩ := by
  have h := correlateSingle_pairs_rows "T" [["p0"], ["p1"], ["p2"]] [1/500, 1/1000] 1
  exact ⟨h.1.trans (by decide), (h.2.1 0 (1/500) rfl).trans (by norm_num)⟩

/-- C8: a recorded entry is classified slow exactly when its execution time
meets or exceeds the configured threshold; equality counts as slow
(inclusive), and a strictly smaller time is recorded as not slow
(`undefined`). -/
theorem slow_classification_inclusive (cfg : Config) (q : String) (t : ℚ) (now : Nat) :
    ((mkQueryData cfg q t now).slow = some true ↔ cfg.mysql_slow_query_warning ≤ t)
    ∧ (t = cfg.mysql_slow_query_warning → (mkQueryData cfg q t now).slow = some true)
    ∧ (t < cfg.mysql_slow_query_warning → (mkQueryData cfg q t now).slow = none) := by
  refine ⟨?_, fun h => ?_, fun h => ?_⟩
  · by_cases h : cfg.mysql_slow_query_warning ≤ t
    · simp [mkQueryData, h]
    · simp [mkQueryData, h]
  · simp [mkQueryData, h]
  · simp [mkQueryData, not_le.mpr h]

/-- Witness for C8: with threshold 5 ms, a 5 ms execution is recorded slow
and a 4 ms execution is not. -/
theorem slow_classification_inclusive_witness :
    (mkQueryData ⟨true, 100, 5, Sum.inl false⟩ "q" 5 0).slow = some true
    ∧ (mkQueryData ⟨true, 100, 5, Sum.inl false⟩ "q" 4 0).slow = none :=
  ⟨(slow_classification_inclusive ⟨true, 100, 5, Sum.inl false⟩ "q" 5 0).2.1 rfl,
    (slow_classification_inclusive ⟨true, 100, 5, Sum.inl false⟩ "q" 4 0).2.2 (by norm_num)⟩

/-- C9: the single-template form performs no bounds check on the parameter
list — one entry is emitted per profiler row even when `offset + i` is past
the end of the parameter sets, and such an entry carries no parameters. -/
theorem correlateSingle_no_bounds (q : String) (ps : List ParamSet) (rows : List ℚ)
    (offset : Nat) :
    (profileBatchStatements (.str q) (some ps) rows offset).length = rows.length
    ∧ (∀ i : Nat, i < rows.length → ps.length ≤ offset + i →
        ((profileBatchStatements (.str q) (some ps) rows offset)[i]?).map LogEntry.parameters
          = some none) := by
  rw [profileBatch_str_eq]
  refine ⟨correlateSingle_length q ps rows offset, fun i hi hout => ?_⟩
  rw [correlateSingle_getElem q ps rows offset i, List.getElem?_eq_getElem hi,
    List.getElem?_eq_none hout]
  rfl

/-- Witness for C9: one parameter set, offset 5, two rows — still two
entries, and the first entry has no parameters. -/
theorem correlateSingle_no_bounds_witness :
    (profileBatchStatements (.str "T") (some [["p0"]]) [1, 2] 5).length = 2
    ∧ ((profileBatchStatements (.str "T") (some [["p0"]]) [1, 2] 5)[0]?).map
        LogEntry.parameters = some none := by
  have h := correlateSingle_no_bounds "T" [["p0"]] [1, 2] 5
  exact ⟨h.1.trans (by decide), h.2 0 (by decide) (by decide)⟩

/-- C10: with the dashboard flag `mysql_ui` disabled, any sequence of
`logQuery` calls leaves the store exactly as it was: no resource log is
created and no record appended. -/
theorem logQuery_ui_disabled_frame (cfg : Config) (calls : List LogCall) (store : Store)
    (hui : cfg.mysql_ui = false) : runLog cfg calls store = store := by
  induction calls generalizing store with
  | nil => rfl
  | cons c cs ih =>
    have hstep :
        logQuery cfg c.now store c.invokingResource c.query c.executionTime c.parameters
          = store := by
      simp [logQuery, hui]
    have hrw : runLog cfg (c :: cs) store
        = runLog cfg cs
            (logQuery cfg c.now store c.invokingResource c.query c.executionTime c.parameters) :=
      rfl
    rw [hrw, hstep]
    exact ih store

/-- Witness for C10: a concrete disabled configuration and one recorded
query leave the empty store untouched. -/
theorem logQuery_ui_disabled_frame_witness :
    runLog ⟨false, 100, 5, Sum.inl true⟩ [⟨"res", "SELECT 1", 9, none, 0⟩] emptyStore
      = emptyStore :=
  logQuery_ui_disabled_frame ⟨false, 100, 5, Sum.inl true⟩ [⟨"res", "SELECT 1", 9, none, 0⟩]
    emptyStore rfl

/-- C1 counterexample: with configured capacity `C = mysql_log_size = 1`,
two appends leave a log of length 2, not `min 2 1 = 1` — the eviction check
`length > mysql_log_size` runs before the push, so the buffer holds up to
`C + 1` records. -/
theorem logQuery_capacity_counterexample :
    (resourceLogOf
        (runLog ⟨true, 1, 10, Sum.inl false⟩
          [⟨"res", "q1", 1, none, 0⟩, ⟨"res", "q2", 2, none, 0⟩] emptyStore) "res").length = 2
    ∧ (resourceLogOf
        (runLog ⟨true, 1, 10, Sum.inl false⟩
          [⟨"res", "q1", 1, none, 0⟩, ⟨"res", "q2", 2, none, 0⟩] emptyStore) "res").length
        ≠ min 2 1 := by
  constructor
  · decide
  · decide

/-- C1 (amended): for every resource and every sequence of `N` appends to it
with configured capacity `C`, the resulting log has length `min(N, C + 1)`
and its contents are exactly the last `min(N, C + 1)` appended records in
insertion order; the oldest record is evicted only on insert, and only when
the pre-insert length already exceeds `C`, so the bound is `C + 1`, not `C`. -/
theorem logQuery_capacity_amended (cfg : Config) (hui : cfg.mysql_ui = true) (r : String)
    (calls : List LogCall) (hall : ∀ c ∈ calls, c.invokingResource = r) :
    resourceLogOf (runLog cfg calls emptyStore) r
      = lastN (min calls.length (cfg.mysql_log_size + 1))
          (calls.map (fun c => mkQueryData cfg c.query c.executionTime c.now)) := by
  rw [runLog_resourceLog cfg hui r calls emptyStore hall]
  rw [show resourceLogOf emptyStore r = [] from rfl]
  rw [← List.foldl_map (fun c : LogCall => mkQueryData cfg c.query c.executionTime c.now)
    (appendL cfg.mysql_log_size)]
  rw [foldl_appendL]
  simp

/-- Witness for C1 (amended): one append with capacity 2 produces exactly
that record. -/
theorem logQuery_capacity_amended_witness :
    resourceLogOf
        (runLog ⟨true, 2, 10, Sum.inl false⟩ [⟨"res", "SELECT 1", 3, none, 7⟩] emptyStore) "res"
      = lastN (min 1 3) [mkQueryData ⟨true, 2, 10, Sum.inl false⟩ "SELECT 1" 3 7] :=
  logQuery_capacity_amended ⟨true, 2, 10, Sum.inl false⟩ rfl "res"
    [⟨"res", "SELECT 1", 3, none, 7⟩] (by decide)

/-- C2 counterexample: a page request for a resource that was never recorded
makes the handler fail (the source dereferences `undefined` and throws a
`TypeError`), with or without a search filter — it does not return the
well-formed empty response the claim describes. -/
theorem buildView_unknown_resource_counterexample :
    fetchResource emptyStore ⟨"none-such", 0, "", []⟩ = Except.error ()
    ∧ fetchResource emptyStore ⟨"none-such", 0, "select", []⟩ = Except.error ()
    ∧ fetchResource emptyStore ⟨"none-such", 0, "", []⟩
        ≠ Except.ok ⟨[], 0, 0, 0, 0⟩ := by
  refine ⟨rfl, rfl, fun h => ?_⟩
  rw [show fetchResource emptyStore ⟨"none-such", 0, "", []⟩ = Except.error () from rfl] at h
  exact Except.noConfusion h

/-- C2 (amended): for every page request naming a resource absent from the
log store, the handler raises a `TypeError` (modelled `Except.error ()`)
before emitting any response, with or without a search filter, instead of
returning an empty view. -/
theorem buildView_unknown_resource_errors (store : Store) (d : ViewRequest)
    (h : store d.resource = none) : fetchResource store d = Except.error () := by
  unfold fetchResource
  rw [h]

/-- Witness for C2 (amended): a concrete unknown-resource request with a
search filter and a sort spec fails on the empty store. -/
theorem buildView_unknown_resource_errors_witness :
    fetchResource emptyStore ⟨"nores", 1, "sel", [⟨.query, true⟩]⟩ = Except.error () :=
  buildView_unknown_resource_errors emptyStore ⟨"nores", 1, "sel", [⟨.query, true⟩]⟩ rfl

/-- C4 counterexample: an error whose script-location prefix uses the
namespace `esx` is reported unchanged — the regex only matches the literal
namespace `citizen`, so the claim's "for every namespace" fails. -/
theorem logError_namespace_counterexample :
    logErrorMessage (.str "SCRIPT ERROR: esx:main.lua:1: oops")
        = "SCRIPT ERROR: esx:main.lua:1: oops"
    ∧ logErrorMessage (.str "SCRIPT ERROR: esx:main.lua:1: oops") ≠ "oops" := by
  constructor
  · decide
  · decide

/-- C4 (amended): for an error reported as a string, `logError` strips an
embedded script-location prefix only for the fixed namespace `citizen`.
First half: an occurrence of `SCRIPT ERROR: citizen:<path>:<line>` followed
by a maximal nonempty run of colons/whitespace, embedded after any prefix
`pre` in which the literal `SCRIPT ERROR: citizen:` does not start, is
removed and everything else is kept.  Second half: a message in which the
literal `SCRIPT ERROR: citizen:` never occurs — in particular one whose
script-location prefix uses any other namespace — is reported unchanged. -/
theorem logError_strips_citizen :
    (∀ pre path digits trail rest : List Char,
      (∀ i, i < pre.length →
        ((pre ++ (scriptErrorLit ++ (path ++ ':' :: (digits ++ (trail ++ rest))))).drop i).take
            scriptErrorLit.length ≠ scriptErrorLit) →
      path ≠ [] → (∀ c ∈ path, isPathChar c = true) →
      digits ≠ [] → (∀ c ∈ digits, c.isDigit = true) →
      trail ≠ [] → (∀ c ∈ trail, isColonSpace c = true) →
      (∀ c, rest.head? = some c → isColonSpace c = false) →
      logErrorMessage
          (.str (String.mk
            (pre ++ (scriptErrorLit ++ (path ++ ':' :: (digits ++ (trail ++ rest)))))))
        = String.mk (pre ++ rest))
    ∧ (∀ s : String,
      (∀ i, i < s.data.length →
        (s.data.drop i).take scriptErrorLit.length ≠ scriptErrorLit) →
      logErrorMessage (.str s) = s) := by
  constructor
  · intro pre path digits trail rest hpre hp hpc hd hdc ht htc hr
    have hm := matchTail_full path digits trail rest hp hpc hd hdc ht htc hr
    have hrep := replaceFirst_skip pre
      (scriptErrorLit ++ (path ++ ':' :: (digits ++ (trail ++ rest))))
      (fun i hi => matchTail_none_of_take_ne _ (hpre i hi)) hm
    simp only [logErrorMessage, stripScriptError]
    rw [hrep]
  · intro s hs
    have hrep : replaceFirst s.data = s.data :=
      replaceFirst_self s.data (fun i hi => matchTail_none_of_take_ne _ (hs i hi))
    simp only [logErrorMessage, stripScriptError]
    rw [hrep]

/-- Witness for C4 (amended): `x SCRIPT ERROR: citizen:a:1: boom` is
reported as `x boom` (embedded occurrence stripped), and
`SCRIPT ERROR: esx:a.lua:5: x` (namespace `esx`) is reported unchanged. -/
theorem logError_strips_citizen_witness :
    logErrorMessage
        (.str (String.mk
          (['x', ' '] ++ (scriptErrorLit ++ (['a'] ++ ':' :: (['1'] ++ ([':', ' '] ++ ['b', 'o', 'o', 'm'])))))))
      = String.mk (['x', ' '] ++ ['b', 'o', 'o', 'm'])
    ∧ logErrorMessage (.str "SCRIPT ERROR: esx:a.lua:5: x") = "SCRIPT ERROR: esx:a.lua:5: x" :=
  ⟨logError_strips_citizen.1 ['x', ' '] ['a'] ['1'] [':', ' '] ['b', 'o', 'o', 'm']
    (by decide) (by decide) (by decide) (by decide) (by decide) (by decide) (by decide)
    (fun c hc => by rw [← Option.some.inj hc]; decide),
  logError_strips_citizen.2 "SCRIPT ERROR: esx:a.lua:5: x" (by decide)⟩

/-- C7: whenever the handler succeeds, the aggregates `resourceTime`,
`resourceSlowQueries` and `resourceQueriesCount` are computed over the whole
case-insensitively filtered log — independent of the sort spec and of the
page index, which only shape the returned page — and
`pageCount = ceil(filteredLength / 10)`. -/
theorem buildView_aggregates (store : Store) (d : ViewRequest) (log : List QueryData)
    (resp : ViewResponse) (hlog : store d.resource = some log)
    (hok : fetchResource store d = Except.ok resp) :
    resp.resourceTime = sumTime (applySearch d.search log)
    ∧ resp.resourceSlowQueries = countSlow (applySearch d.search log)
    ∧ resp.resourceQueriesCount = (applySearch d.search log).length
    ∧ resp.pageCount = ((applySearch d.search log).length + 9) / 10 := by
  unfold fetchResource at hok
  rw [hlog] at hok
  have hresp : buildView d log = resp := Except.ok.inj hok
  subst hresp
  exact ⟨rfl, rfl, rfl, rfl⟩

/-- Witness for C7: a two-record log, a search matching one record, a page
index past the end — the aggregates still describe the one filtered record. -/
theorem buildView_aggregates_witness :
    (⟨[], 1, 1, 0, 3⟩ : ViewResponse).resourceTime
        = sumTime (applySearch "sel" [⟨0, "SELECT a", 3, none⟩, ⟨0, "UPDATE b", 4, some true⟩])
    ∧ (⟨[], 1, 1, 0, 3⟩ : ViewResponse).resourceSlowQueries
        = countSlow (applySearch "sel" [⟨0, "SELECT a", 3, none⟩, ⟨0, "UPDATE b", 4, some true⟩])
    ∧ (⟨[], 1, 1, 0, 3⟩ : ViewResponse).resourceQueriesCount
        = (applySearch "sel" [⟨0, "SELECT a", 3, none⟩, ⟨0, "UPDATE b", 4, some true⟩]).length
    ∧ (⟨[], 1, 1, 0, 3⟩ : ViewResponse).pageCount
        = ((applySearch "sel" [⟨0, "SELECT a", 3, none⟩, ⟨0, "UPDATE b", 4, some true⟩]).length
            + 9) / 10 :=
  buildView_aggregates
    (setResource emptyStore "res" [⟨0, "SELECT a", 3, none⟩, ⟨0, "UPDATE b", 4, some true⟩])
    ⟨"res", 3, "sel", []⟩ [⟨0, "SELECT a", 3, none⟩, ⟨0, "UPDATE b", 4, some true⟩]
    ⟨[], 1, 1, 0, 3⟩ (by with_unfolding_all rfl) (by with_unfolding_all rfl)

end Oxmysql
